import Mathlib

/-! Lean model of the cpp-ethereum p2p Host (libp2p/Host.cpp and libp2p/Host.h):
peer persistence (saveNodes and restoreNodes), the discovery adapter
(onNodeTableEvent), outbound dialing (connect), keepalive and late-peer
eviction, frame sealing (sealBytes), public-endpoint resolution (determinePublic),
the identity loader (getHostIdentifier) and the peers() accessor, together with
proofs of round-trip, selection, single-flight, idempotence and safety
properties. Machine integers are modelled as Nat and Int with explicit
mod 4294967296 where 32-bit overflow matters; wall-clock times are integer
seconds (the resolution at which system_clock values are serialized) and the
keepalive steady clock is integer milliseconds. -/

namespace P2P

/-- Disconnect reason codes in the source's declaration order (libp2p/Common.h,
mirrored by the spec's stable enum listing from NoDisconnect = 0 through
UserReason). -/
inductive DisconnectReason where
  | noDisconnect
  | clientQuit
  | disconnectRequested
  | tcpError
  | badProtocol
  | uselessPeer
  | tooManyPeers
  | duplicatePeer
  | incompatibleProtocol
  | nullIdentity
  | unexpectedIdentity
  | localIdentity
  | pingTimeout
  | userReason
deriving DecidableEq, Repr

/-- Integer code of a disconnect reason, the (unsigned) cast used when the
reason is serialized by Host::saveNodes. -/
def reasonCode : DisconnectReason → Nat
  | .noDisconnect => 0
  | .clientQuit => 1
  | .disconnectRequested => 2
  | .tcpError => 3
  | .badProtocol => 4
  | .uselessPeer => 5
  | .tooManyPeers => 6
  | .duplicatePeer => 7
  | .incompatibleProtocol => 8
  | .nullIdentity => 9
  | .unexpectedIdentity => 10
  | .localIdentity => 11
  | .pingTimeout => 12
  | .userReason => 13

/-! ## Framing header: Host::sealBytes -/

/-- The 32-bit length field computed by Host::sealBytes. The source computes
uint32_t len = (uint32_t)_b.size() - 8, i.e. subtraction in unsigned 32-bit
arithmetic: modulo 4294967296 (2 to the 32). -/
def sealLen (n : Nat) : Nat := (n % 4294967296 + (4294967296 - 8)) % 4294967296

/-- Host::sealBytes: writes the four magic bytes 0x22 0x40 0x08 0x91 at indices
0 through 3 and the big-endian 32-bit length field at indices 4 through 7.
The source masks each shifted byte with 0xff, written here as mod 256.
List.set leaves a too-short list unchanged where the C++ index write would be
out of bounds; sealChecked below models that bounds requirement explicitly. -/
def sealBytes (b : List Nat) : List Nat :=
  ((((((((b.set 0 0x22).set 1 0x40).set 2 0x08).set 3 0x91).set 4
      ((sealLen b.length >>> 24) % 256)).set 5
      ((sealLen b.length >>> 16) % 256)).set 6
      ((sealLen b.length >>> 8) % 256)).set 7 (sealLen b.length % 256))

/-- Big-endian byte decomposition of a 32-bit value, as laid out by sealBytes at
indices 4 through 7. -/
def beBytes32 (v : Nat) : List Nat :=
  [(v >>> 24) % 256, (v >>> 16) % 256, (v >>> 8) % 256, v % 256]

/-- An index write that fails (like the C++ vector index operator being out of
bounds) instead of being silently dropped. -/
def setChecked (l : List Nat) (i v : Nat) : Option (List Nat) :=
  if i < l.length then some (l.set i v) else none

/-- Host::sealBytes with every index write bounds-checked: the same writes as sealBytes,
in source order (the length field is read from the size after the magic
writes, which do not change it). -/
def sealChecked (b : List Nat) : Option (List Nat) :=
  (setChecked b 0 0x22).bind fun b1 =>
  (setChecked b1 1 0x40).bind fun b2 =>
  (setChecked b2 2 0x08).bind fun b3 =>
  (setChecked b3 3 0x91).bind fun b4 =>
  (setChecked b4 4 ((sealLen b4.length >>> 24) % 256)).bind fun b5 =>
  (setChecked b5 5 ((sealLen b4.length >>> 16) % 256)).bind fun b6 =>
  (setChecked b6 6 ((sealLen b4.length >>> 8) % 256)).bind fun b7 =>
  setChecked b7 7 (sealLen b4.length % 256)

theorem sealLen_of_ge {n : Nat} (h : 8 ≤ n) : sealLen n = (n - 8) % 4294967296 := by
  unfold sealLen
  rw [Nat.mod_add_mod]
  rw [show n + (4294967296 - 8) = (n - 8) + 4294967296 by omega]
  rw [Nat.add_mod_right]

theorem sealBytes_cons8 (a0 a1 a2 a3 a4 a5 a6 a7 : Nat) (rest : List Nat) :
    sealBytes (a0 :: a1 :: a2 :: a3 :: a4 :: a5 :: a6 :: a7 :: rest) =
      0x22 :: 0x40 :: 0x08 :: 0x91 ::
      ((sealLen (rest.length + 8) >>> 24) % 256) ::
      ((sealLen (rest.length + 8) >>> 16) % 256) ::
      ((sealLen (rest.length + 8) >>> 8) % 256) ::
      (sealLen (rest.length + 8) % 256) :: rest := rfl

set_option maxRecDepth 8000 in
theorem sealChecked_cons8 (a0 a1 a2 a3 a4 a5 a6 a7 : Nat) (rest : List Nat) :
    sealChecked (a0 :: a1 :: a2 :: a3 :: a4 :: a5 :: a6 :: a7 :: rest) =
      some (sealBytes (a0 :: a1 :: a2 :: a3 :: a4 :: a5 :: a6 :: a7 :: rest)) := by
  simp [sealChecked, setChecked, sealBytes]

/-- C8: for every buffer of length at least 8 whose first 8 bytes are zero,
sealing is idempotent (re-sealing yields the same bytes), bytes 0 through 3 of
the sealed buffer are the magic 0x22 0x40 0x08 0x91, and bytes 4 through 7 are
the big-endian 32-bit value length - 8 (taken mod 2 to the 32); the payload
beyond the header is untouched. -/
theorem sealBytes_idempotent_and_header (b : List Nat) (hlen : 8 ≤ b.length)
    (hzero : b.take 8 = List.replicate 8 0) :
    sealBytes (sealBytes b) = sealBytes b ∧
    sealBytes b = [0x22, 0x40, 0x08, 0x91] ++ beBytes32 ((b.length - 8) % 4294967296) ++ b.drop 8 := by
  obtain ⟨a0, a1, a2, a3, a4, a5, a6, a7, rest, rfl⟩ :
      ∃ x0 x1 x2 x3 x4 x5 x6 x7 t,
        b = x0 :: x1 :: x2 :: x3 :: x4 :: x5 :: x6 :: x7 :: t := by
    rcases b with _ | ⟨x0, _ | ⟨x1, _ | ⟨x2, _ | ⟨x3, _ | ⟨x4, _ | ⟨x5, _ | ⟨x6, _ | ⟨x7, t⟩⟩⟩⟩⟩⟩⟩⟩ <;>
      first
        | exact ⟨_, _, _, _, _, _, _, _, _, rfl⟩
        | (simp only [List.length_nil, List.length_cons] at hlen; omega)
  constructor
  · simp only [sealBytes_cons8]
  · rw [sealBytes_cons8]
    have hL : 8 ≤ rest.length + 8 := by omega
    rw [sealLen_of_ge hL]
    simp [beBytes32]

theorem seal_idempotent_and_header_witness :
    8 ≤ ([0, 0, 0, 0, 0, 0, 0, 0, 1, 2] : List Nat).length ∧
    ([0, 0, 0, 0, 0, 0, 0, 0, 1, 2] : List Nat).take 8 = List.replicate 8 0 ∧
    (sealBytes (sealBytes [0, 0, 0, 0, 0, 0, 0, 0, 1, 2]) = sealBytes [0, 0, 0, 0, 0, 0, 0, 0, 1, 2] ∧
     sealBytes [0, 0, 0, 0, 0, 0, 0, 0, 1, 2] =
       [0x22, 0x40, 0x08, 0x91] ++
         beBytes32 ((([0, 0, 0, 0, 0, 0, 0, 0, 1, 2] : List Nat).length - 8) % 4294967296) ++
         ([0, 0, 0, 0, 0, 0, 0, 0, 1, 2] : List Nat).drop 8) :=
  ⟨by decide, by decide,
    sealBytes_idempotent_and_header [0, 0, 0, 0, 0, 0, 0, 0, 1, 2] (by decide) (by decide)⟩

/-- C9: sealBytes is well-defined exactly when the buffer holds at least the 8
header bytes: the bounds-checked version succeeds iff the length is at least 8
(in which case it agrees with sealBytes), and for a shorter buffer the unsigned
32-bit length field underflows to 4294967296 - 8 + length. -/
theorem sealBytes_requires_eight_bytes (b : List Nat) :
    ((sealChecked b).isSome ↔ 8 ≤ b.length) ∧
    (b.length < 8 → sealLen b.length = 4294967296 - 8 + b.length) ∧
    (8 ≤ b.length → sealChecked b = some (sealBytes b)) := by
  refine ⟨?_, ?_, ?_⟩
  · constructor
    · intro hsome
      by_contra hlt
      push_neg at hlt
      rcases b with _ | ⟨x0, _ | ⟨x1, _ | ⟨x2, _ | ⟨x3, _ | ⟨x4, _ | ⟨x5, _ | ⟨x6, _ | ⟨x7, t⟩⟩⟩⟩⟩⟩⟩⟩ <;>
        first
          | (simp only [List.length_nil, List.length_cons] at hlt; omega)
          | (simp [sealChecked, setChecked] at hsome)
    · intro hge
      rcases b with _ | ⟨x0, _ | ⟨x1, _ | ⟨x2, _ | ⟨x3, _ | ⟨x4, _ | ⟨x5, _ | ⟨x6, _ | ⟨x7, t⟩⟩⟩⟩⟩⟩⟩⟩ <;>
        first
          | (simp only [List.length_nil, List.length_cons] at hge; omega)
          | (rw [sealChecked_cons8]; exact rfl)
  · intro hlt
    unfold sealLen
    omega
  · intro hge
    rcases b with _ | ⟨x0, _ | ⟨x1, _ | ⟨x2, _ | ⟨x3, _ | ⟨x4, _ | ⟨x5, _ | ⟨x6, _ | ⟨x7, t⟩⟩⟩⟩⟩⟩⟩⟩ <;>
      first
        | (simp only [List.length_nil, List.length_cons] at hge; omega)
        | exact sealChecked_cons8 _ _ _ _ _ _ _ _ _

theorem seal_requires_eight_bytes_witness :
    ([1, 2, 3] : List Nat).length < 8 ∧
    sealLen ([1, 2, 3] : List Nat).length = 4294967296 - 8 + ([1, 2, 3] : List Nat).length :=
  ⟨by decide, (sealBytes_requires_eight_bytes [1, 2, 3]).2.1 (by decide)⟩

/-! ## Data model: addresses, peers, sessions, the Host state -/

/-- An IP address as carried in a peer endpoint: a v4 address is its four
bytes, a v6 address its sixteen bytes (what to_bytes yields in the source). -/
inductive IpAddr where
  | v4 (b0 b1 b2 b3 : Nat)
  | v6 (bs : List Nat)
deriving DecidableEq, Repr

/-- Modelled from the spec: isPrivateAddress lives in libdevcore, which is not
under src/. The spec only distinguishes private from public endpoints, so the
RFC1918 ranges and the loopback range are classified private and every other
address public; v6 addresses are classified public. -/
def isPrivateAddress : IpAddr → Bool
  | .v4 b0 b1 _ _ =>
      b0 == 10 || (b0 == 172 && decide (16 ≤ b1) && decide (b1 < 32)) ||
      (b0 == 192 && b1 == 168) || b0 == 127
  | .v6 _ => false

/-- Modelled from the spec: m_alias.pub() derives the 64-byte node id from the
32-byte secret (secp256k1, libdevcrypto, not under src/). The identity claims
only need that the node id is a fixed function of the secret, so the
derivation is modelled as the identity map on the abstract key value. -/
def keyPub (secret : Nat) : Nat := secret

/-- Representation of connectivity state and peer metadata (class Peer of
libp2p/Host.h). ptr models the object identity of the heap-allocated Peer
(the Peer pointer used as the key of the pending-connect set); addr and
tcpPort are endpoint.tcp; the time stamps are integer seconds of
system_clock. -/
structure Peer where
  ptr : Nat
  id : Nat
  addr : IpAddr
  tcpPort : Nat
  lastConnected : Int
  lastAttempted : Int
  failedAttempts : Nat
  lastDisconnect : DisconnectReason
  score : Int
  rating : Int
deriving DecidableEq, Repr

/-- A fresh default-constructed Peer (make_shared<Peer>() in the source):
zero endpoint, epoch time stamps, NoDisconnect. -/
def mkPeer (ptrv idv : Nat) : Peer :=
  ⟨ptrv, idv, .v4 0 0 0 0, 0, 0, 0, 0, .noDisconnect, 0, 0⟩

/-- A session as the Host observes it through its weak reference: alive is
whether the weak_ptr can be locked, socketOpen is m_socket.is_open(),
lastReceived is m_lastReceived on the steady clock (milliseconds), info
stands for the opaque PeerSessionInfo record, and disconnected records a
disconnect the Host has issued on it. -/
structure Session where
  alive : Bool
  socketOpen : Bool
  lastReceived : Int
  info : Nat
  disconnected : Option DisconnectReason
deriving DecidableEq, Repr

/-- Lookup in an association list keyed by node id (std::map find/count). -/
def assocFind {α : Type} (l : List (Nat × α)) (k : Nat) : Option α :=
  match l with
  | [] => none
  | (k2, v) :: rest => if k2 = k then some v else assocFind rest k

/-- The Host state touched by the modelled operations: m_run, the alias
secret, m_peers, m_sessions, the node table contents (id to tcp endpoint),
m_pendingNodeConns (set of Peer pointers), m_idealPeerCount and m_lastPing
(steady clock, milliseconds). -/
structure Host where
  run : Bool
  aliasSecret : Nat
  peers : List (Nat × Peer)
  sessions : List (Nat × Session)
  nodeTable : List (Nat × (IpAddr × Nat))
  pendingNodeConns : List Nat
  idealPeerCount : Nat
  lastPing : Int
deriving DecidableEq, Repr

/-- Host::id(): m_alias.pub(). -/
def hostId (h : Host) : Nat := keyPub h.aliasSecret

/-- Host::isStarted(): m_run. -/
def isStarted (h : Host) : Bool := h.run

/-- Host::peerCount(): the size of m_peers (the peer table), exactly as the
source computes it. -/
def peerCount (h : Host) : Nat := h.peers.length

/-- The number of live peer sessions: sessions whose weak reference upgrades
and whose socket is open, i.e. what Host::peers() enumerates on a running
host (the spec's live_peer_count). -/
def liveSessionCount (h : Host) : Nat :=
  (h.sessions.filter (fun kv => kv.2.alive && kv.2.socketOpen)).length

/-- Host::havePeerSession: whether m_sessions holds an upgradeable entry. -/
def havePeerSession (h : Host) (nid : Nat) : Bool :=
  match assocFind h.sessions nid with
  | some s => s.alive
  | none => false

/-! ## Host::peers (C10) -/

/-- Host::peers(): empty when not running, otherwise the info records of all
sessions that lock and have an open socket. -/
def hostPeers (h : Host) : List Nat :=
  if !h.run then []
  else ((h.sessions.filter (fun kv => kv.2.alive && kv.2.socketOpen)).map (fun kv => kv.2.info))

/-- C10: whenever the host is not running (isStarted is false), peers()
returns the empty list, regardless of the session registry contents. -/
theorem peers_empty_when_stopped (h : Host) (hrun : isStarted h = false) :
    hostPeers h = [] := by
  unfold hostPeers
  unfold isStarted at hrun
  rw [hrun]
  rfl

/-- A stopped host whose session registry still holds a live open session. -/
def stoppedHost : Host :=
  { run := false, aliasSecret := 1, peers := [], sessions := [(4, ⟨true, true, 0, 77, none⟩)],
    nodeTable := [], pendingNodeConns := [], idealPeerCount := 5, lastPing := 0 }

theorem peers_empty_when_stopped_witness :
    isStarted stoppedHost = false ∧ stoppedHost.sessions ≠ [] ∧ hostPeers stoppedHost = [] :=
  ⟨by decide, by decide, peers_empty_when_stopped stoppedHost (by decide)⟩

/-! ## Host::connect (C6) -/

/-- Host::connect up to the point where the asynchronous connect is issued:
returns the updated host and whether async_connect was dispatched. The source
returns early when not running, when a live session already exists, when the
node table does not know the node, and when the peer pointer is already in
m_pendingNodeConns; otherwise it inserts the pointer and dials. -/
def connect (h : Host) (p : Peer) : Host × Bool :=
  if !h.run then (h, false)
  else if havePeerSession h p.id then (h, false)
  else if (assocFind h.nodeTable p.id).isNone then (h, false)
  else if p.ptr ∈ h.pendingNodeConns then (h, false)
  else ({ h with pendingNodeConns := p.ptr :: h.pendingNodeConns }, true)

/-- The completion handler of the asynchronous connect: on error stamps
lastDisconnect = TCPError and lastAttempted = now, on success stamps
lastConnected = now; in both cases it erases the peer pointer from
m_pendingNodeConns (set erase, modelled on the duplicate-free list as
removing every occurrence). -/
def connectCallback (h : Host) (p : Peer) (ec : Bool) (now : Int) : Host × Peer :=
  let p2 := if ec then { p with lastDisconnect := .tcpError, lastAttempted := now }
            else { p with lastConnected := now }
  ({ h with pendingNodeConns := h.pendingNodeConns.filter (fun x => decide (x ≠ p.ptr)) }, p2)

/-- C6: the dialer is single-flight per peer instance: connect returns without
dialing when the peer pointer is already pending, a dispatched dial has
inserted the pointer into the pending set, and the completion handler always
removes the pointer from the pending set. -/
theorem connect_single_flight :
    (∀ (h : Host) (p : Peer), p.ptr ∈ h.pendingNodeConns → connect h p = (h, false)) ∧
    (∀ (h : Host) (p : Peer), (connect h p).2 = true → p.ptr ∈ (connect h p).1.pendingNodeConns) ∧
    (∀ (h : Host) (p : Peer) (ec : Bool) (now : Int),
      p.ptr ∉ (connectCallback h p ec now).1.pendingNodeConns) := by
  refine ⟨?_, ?_, ?_⟩
  · intro h p hmem
    unfold connect
    split_ifs <;> rfl
  · intro h p hdial
    unfold connect at hdial ⊢
    split_ifs at hdial ⊢
    exact List.mem_cons_self _ _
  · intro h p ec now hmem
    unfold connectCallback at hmem
    simp only [List.mem_filter, decide_eq_true_eq] at hmem
    exact hmem.2 rfl

/-- A running host with peer pointer 3 pending, node 9 in the node table and
no sessions. -/
def dialHost : Host :=
  { run := true, aliasSecret := 1, peers := [], sessions := [],
    nodeTable := [(9, (.v4 54 0 0 1, 30303))], pendingNodeConns := [3],
    idealPeerCount := 5, lastPing := 0 }

/-- The peer object with pointer identity 3 targeting node 9. -/
def dialPeer : Peer := { mkPeer 3 9 with addr := .v4 54 0 0 1, tcpPort := 30303 }

theorem connect_single_flight_witness :
    dialPeer.ptr ∈ dialHost.pendingNodeConns ∧
    connect dialHost dialPeer = (dialHost, false) ∧
    dialPeer.ptr ∉ (connectCallback dialHost dialPeer true 5).1.pendingNodeConns :=
  ⟨by decide, connect_single_flight.1 dialHost dialPeer (by decide),
    connect_single_flight.2.2 dialHost dialPeer true 5⟩

/-! ## Keepalive and late-peer eviction (C7) -/

/-- Host::c_keepAliveInterval, 30 s, in milliseconds of the steady clock. -/
def c_keepAliveInterval : Int := 30000

/-- Host::c_keepAliveTimeOut, 1000 ms. -/
def c_keepAliveTimeOut : Int := 1000

/-- Host::keepAlivePeers: returns unchanged unless at least
c_keepAliveInterval has passed since m_lastPing; otherwise pings every
lockable session (the ping itself is session-internal and not modelled) and
sets m_lastPing to now. -/
def keepAlivePeers (now : Int) (h : Host) : Host :=
  if now - c_keepAliveInterval < h.lastPing then h
  else { h with lastPing := now }

/-- Host::disconnectLatePeers: returns unchanged when
now - c_keepAliveTimeOut < m_lastPing; otherwise disconnects with PingTimeout
every lockable session with now - c_keepAliveTimeOut > m_lastPing and
m_lastReceived < m_lastPing. -/
def disconnectLatePeers (now : Int) (h : Host) : Host :=
  if now - c_keepAliveTimeOut < h.lastPing then h
  else { h with sessions := h.sessions.map (fun kv =>
    if kv.2.alive && decide (now - c_keepAliveTimeOut > h.lastPing) &&
        decide (kv.2.lastReceived < h.lastPing) then
      (kv.1, { kv.2 with disconnected := some .pingTimeout })
    else kv) }

/-- A live session that last received data 1 ms before the ping broadcast. -/
def lateSession : Session := ⟨true, true, -1, 11, none⟩

/-- A running host with one late live session and a ping broadcast at steady
time 0. -/
def lateHost : Host :=
  { run := true, aliasSecret := 1, peers := [], sessions := [(4, lateSession)],
    nodeTable := [], pendingNodeConns := [], idealPeerCount := 5, lastPing := 0 }

/-- C7 counterexample: at a tick exactly 1 s after the last ping broadcast
(elapsed equals c_keepAliveTimeOut, so at least 1 s has elapsed), a live
session with lastReceived earlier than the broadcast is NOT disconnected: the
source requires strictly more than 1 s for the eviction. -/
theorem disconnectLatePeers_boundary_cex :
    (1000 : Int) - lateHost.lastPing ≥ c_keepAliveTimeOut ∧
    lateSession.alive = true ∧
    lateSession.lastReceived < lateHost.lastPing ∧
    (disconnectLatePeers 1000 lateHost).sessions = [(4, lateSession)] := by
  refine ⟨by decide, by decide, by decide, ?_⟩
  decide

/-- C7 amended: at a tick at which strictly more than c_keepAliveTimeOut
(1 s) has elapsed since the last ping broadcast, every live session whose
lastReceived is earlier than the broadcast time is disconnected with reason
PingTimeout. -/
theorem disconnectLatePeers_amended (now : Int) (h : Host) (k : Nat) (s : Session)
    (hmem : (k, s) ∈ h.sessions) (halive : s.alive = true)
    (helapsed : now - h.lastPing > c_keepAliveTimeOut)
    (hlate : s.lastReceived < h.lastPing) :
    (k, { s with disconnected := some DisconnectReason.pingTimeout }) ∈
      (disconnectLatePeers now h).sessions := by
  unfold disconnectLatePeers
  rw [if_neg (by unfold c_keepAliveTimeOut at helapsed ⊢; omega)]
  refine List.mem_map.mpr ⟨(k, s), hmem, ?_⟩
  rw [if_pos]
  simp only [halive, Bool.true_and, Bool.and_eq_true, decide_eq_true_eq]
  exact ⟨by unfold c_keepAliveTimeOut at helapsed ⊢; omega, hlate⟩

theorem disconnectLatePeers_amended_witness :
    ((4 : Nat), lateSession) ∈ lateHost.sessions ∧
    ((4 : Nat), { lateSession with disconnected := some DisconnectReason.pingTimeout }) ∈
      (disconnectLatePeers 2001 lateHost).sessions :=
  ⟨by decide,
    disconnectLatePeers_amended 2001 lateHost 4 lateSession (by decide) (by decide)
      (by decide) (by decide)⟩

/-! ## Discovery adapter: Host::onNodeTableEvent (C2) -/

/-- Node table event kinds consumed by the Host. -/
inductive NodeTableEventType where
  | nodeEntryAdded
  | nodeEntryRemoved
deriving DecidableEq, Repr

/-- Host::onNodeTableEvent. On NodeEntryAdded for a node the node table
knows: ensure m_peers has a Peer for the id (creating a fresh one and setting
its id if absent), set its TCP endpoint from the discovery record, and call
connect(p) when peerCount() < m_idealPeerCount, where peerCount() is the size
of m_peers. On NodeEntryRemoved: erase the id from m_peers. The returned
Bool reports whether connect was invoked (the fresh Peer's pointer identity
is immaterial here and modelled by its node id). -/
def onNodeTableEvent (h : Host) (n : Nat) (e : NodeTableEventType) : Host × Bool :=
  match e with
  | .nodeEntryAdded =>
    match assocFind h.nodeTable n with
    | none => (h, false)
    | some ep =>
      let peers2 :=
        match assocFind h.peers n with
        | none => h.peers ++ [(n, { mkPeer n n with addr := ep.1, tcpPort := ep.2 })]
        | some _ => h.peers.map (fun kv =>
            if kv.1 = n then (kv.1, { kv.2 with addr := ep.1, tcpPort := ep.2 }) else kv)
      let h2 := { h with peers := peers2 }
      if peerCount h2 < h2.idealPeerCount then (h2, true) else (h2, false)
  | .nodeEntryRemoved =>
    ({ h with peers := h.peers.filter (fun kv => decide (kv.1 ≠ n)) }, false)

/-- A host with five known (but offline) peers, no live session at all, ideal
peer count five, and node 6 known to the node table. -/
def discoveryHost : Host :=
  { run := true, aliasSecret := 1,
    peers := [(1, mkPeer 1 1), (2, mkPeer 2 2), (3, mkPeer 3 3), (4, mkPeer 4 4), (5, mkPeer 5 5)],
    sessions := [],
    nodeTable := [(6, (.v4 54 0 0 1, 30303))],
    pendingNodeConns := [], idealPeerCount := 5, lastPing := 0 }

/-- C2: the source guards the dial with peerCount() < m_idealPeerCount, but
peerCount() is the size of the peer table m_peers (all known peers, live or
not), not the number of live peer sessions. On a host with five offline
known peers, no live session and ideal peer count five, an Added event for
node 6 (known to the node table) does NOT invoke connect, although the live
session count 0 is strictly below the ideal peer count 5 — contradicting the
claim and peerCount's own doc comment in Host.h. -/
theorem onNodeTableEvent_counts_peer_table :
    (assocFind discoveryHost.nodeTable 6).isSome = true ∧
    liveSessionCount discoveryHost = 0 ∧
    liveSessionCount (onNodeTableEvent discoveryHost 6 .nodeEntryAdded).1 = 0 ∧
    discoveryHost.idealPeerCount = 5 ∧
    peerCount (onNodeTableEvent discoveryHost 6 .nodeEntryAdded).1 = 6 ∧
    (onNodeTableEvent discoveryHost 6 .nodeEntryAdded).2 = false := by
  refine ⟨by decide, by decide, ?_, by decide, ?_, ?_⟩ <;> decide

/-! ## Peer persistence: Host::saveNodes and Host::restoreNodes (C1, C5) -/

/-- One serialized peer entry of the saved-nodes list: the source appends a
10-item list holding the address bytes, the TCP port, the node id, a zero
trust flag, lastConnected and lastAttempted as epoch seconds, the failed
attempt counter, the numeric disconnect reason, the score and the rating.
The serialization primitives themselves (RLP nested lists) are out of scope
per the spec, so an entry is modelled structurally. -/
structure SavedPeer where
  addr : IpAddr
  port : Nat
  nodeId : Nat
  trust : Nat
  lastConnectedS : Int
  lastAttemptedS : Int
  failedAttempts : Nat
  lastDisconnectCode : Nat
  score : Int
  rating : Int
deriving DecidableEq, Repr

/-- The whole saved-nodes blob: version header 0, the alias secret, and the
entry list (the source emits a 3-item outer list). -/
structure SavedData where
  version : Nat
  secret : Nat
  entries : List SavedPeer
deriving DecidableEq, Repr

/-- The 10 fields written for one saved peer. -/
def encodePeer (p : Peer) : SavedPeer :=
  ⟨p.addr, p.tcpPort, p.id, 0, p.lastConnected, p.lastAttempted, p.failedAttempts,
    reasonCode p.lastDisconnect, p.score, p.rating⟩

/-- The loop body of Host::saveNodes over m_peers, with the source's
selection condition inline: connected within 48 h, port strictly between 0
and 32768, id different from the host's own id, and a non-private address. -/
def saveNodesLoop (now : Int) (selfId : Nat) : List (Nat × Peer) → List SavedPeer
  | [] => []
  | (_, n) :: rest =>
    if decide (now - n.lastConnected < 3600 * 48) && decide (0 < n.tcpPort) &&
        decide (n.tcpPort < 32768) && decide (n.id ≠ selfId) && !(isPrivateAddress n.addr) then
      encodePeer n :: saveNodesLoop now selfId rest
    else saveNodesLoop now selfId rest

/-- Host::saveNodes: version 0, the alias secret, and the selected entries. -/
def saveNodes (h : Host) (now : Int) : SavedData :=
  ⟨0, h.aliasSecret, saveNodesLoop now (hostId h) h.peers⟩

/-- Host::restoreNodes on a versioned blob. For version 0 the alias is
rebuilt from the stored secret; the loop over the entries parses each
endpoint and id and tests m_peers.count(id), but every statement that would
insert the peer or restore its stats is commented out in the source (TODO),
so the loop leaves the host unchanged. Unknown versions fall through the
switch and change nothing beyond the version test. -/
def restoreNodes (h : Host) (d : SavedData) : Host :=
  match d.version with
  | 0 =>
    let h1 := { h with aliasSecret := d.secret }
    d.entries.foldl
      (fun acc i =>
        if (assocFind acc.peers i.nodeId).isSome then acc
        else acc)
      h1
  | _ => h

theorem saveNodesLoop_eq_filter (now : Int) (selfId : Nat) (l : List (Nat × Peer)) :
    saveNodesLoop now selfId l =
      ((l.map Prod.snd).filter (fun n =>
        decide (now - n.lastConnected < 3600 * 48) && decide (0 < n.tcpPort) &&
        decide (n.tcpPort < 32768) && decide (n.id ≠ selfId) &&
        !(isPrivateAddress n.addr))).map encodePeer := by
  induction l with
  | nil => rfl
  | cons hd tl ih =>
    obtain ⟨k, n⟩ := hd
    simp only [saveNodesLoop, List.map_cons, List.filter_cons]
    cases hc : (decide (now - n.lastConnected < 3600 * 48) && decide (0 < n.tcpPort) &&
        decide (n.tcpPort < 32768) && decide (n.id ≠ selfId) &&
        !(isPrivateAddress n.addr)) with
    | true => simp [ih]
    | false => simp [ih]

theorem encodePeer_cond_fields {a b : Peer} (h : encodePeer a = encodePeer b) :
    a.addr = b.addr ∧ a.tcpPort = b.tcpPort ∧ a.id = b.id ∧
      a.lastConnected = b.lastConnected := by
  unfold encodePeer at h
  injection h with h1 h2 h3 h4 h5 h6
  exact ⟨h1, h2, h3, h5⟩

/-- C5: a peer entry of the peer table is serialized by saveNodes if and only
if, at save time, now - lastConnected is under 48 hours, the TCP port is
strictly between 0 and 32768, the peer's node id differs from the host's own
id, and the peer's address is not private. -/
theorem saveNodes_selection (now : Int) (h : Host) (k : Nat) (p : Peer)
    (hp : (k, p) ∈ h.peers) :
    encodePeer p ∈ (saveNodes h now).entries ↔
      (now - p.lastConnected < 3600 * 48 ∧ 0 < p.tcpPort ∧ p.tcpPort < 32768 ∧
        p.id ≠ hostId h ∧ isPrivateAddress p.addr = false) := by
  unfold saveNodes
  rw [saveNodesLoop_eq_filter]
  constructor
  · intro hmem
    obtain ⟨q, hq, hqe⟩ := List.mem_map.mp hmem
    obtain ⟨hqmem, hqc⟩ := List.mem_filter.mp hq
    obtain ⟨e1, e2, e3, e4⟩ := encodePeer_cond_fields hqe
    simp only [Bool.and_eq_true, decide_eq_true_eq, Bool.not_eq_true'] at hqc
    rw [e1, e2, e3, e4] at hqc
    exact ⟨hqc.1.1.1.1, hqc.1.1.1.2, hqc.1.1.2, hqc.1.2, hqc.2⟩
  · intro hc
    refine List.mem_map.mpr ⟨p, List.mem_filter.mpr ⟨?_, ?_⟩, rfl⟩
    · exact List.mem_map.mpr ⟨(k, p), hp, rfl⟩
    · simp only [Bool.and_eq_true, decide_eq_true_eq, Bool.not_eq_true']
      exact ⟨⟨⟨⟨hc.1, hc.2.1⟩, hc.2.2.1⟩, hc.2.2.2.1⟩, hc.2.2.2.2⟩

/-- A peer that satisfies every selection rule at save time 1000000: public
address 54.0.0.1, port 30303, connected one hour earlier, id 7 differing
from the host id. -/
def goodPeer : Peer :=
  ⟨7, 7, .v4 54 0 0 1, 30303, 996400, 996400, 0, .noDisconnect, 3, 2⟩

/-- An idle host owning exactly goodPeer, with alias secret 99. -/
def idleHost : Host :=
  { run := false, aliasSecret := 99, peers := [(7, goodPeer)], sessions := [],
    nodeTable := [], pendingNodeConns := [], idealPeerCount := 5, lastPing := 0 }

theorem saveNodes_selection_witness :
    ((7 : Nat), goodPeer) ∈ idleHost.peers ∧
    (encodePeer goodPeer ∈ (saveNodes idleHost 1000000).entries ↔
      ((1000000 : Int) - goodPeer.lastConnected < 3600 * 48 ∧ 0 < goodPeer.tcpPort ∧
        goodPeer.tcpPort < 32768 ∧ goodPeer.id ≠ hostId idleHost ∧
        isPrivateAddress goodPeer.addr = false)) :=
  ⟨by decide, saveNodes_selection 1000000 idleHost 7 goodPeer (by decide)⟩

/-- A fresh host (distinct secret, empty peer table) for restoring into. -/
def freshHost : Host :=
  { run := false, aliasSecret := 5, peers := [], sessions := [],
    nodeTable := [], pendingNodeConns := [], idealPeerCount := 5, lastPing := 0 }

/-- C1: restoreNodes(saveNodes()) on an idle host does NOT recover the saved
peers. goodPeer passes every selection rule and is serialized, and the host
identity (the alias secret, hence the derived node id) is restored, but the
restored peer table stays empty: every peer-restoring statement in
Host::restoreNodes is commented out, contradicting both the claim and the
declared contract of restoreNodes in Host.h. -/
theorem restoreNodes_drops_saved_peers :
    (saveNodes idleHost 1000000).entries = [encodePeer goodPeer] ∧
    (restoreNodes freshHost (saveNodes idleHost 1000000)).aliasSecret = idleHost.aliasSecret ∧
    hostId (restoreNodes freshHost (saveNodes idleHost 1000000)) = hostId idleHost ∧
    (restoreNodes freshHost (saveNodes idleHost 1000000)).peers = [] := by
  refine ⟨?_, ?_, ?_, ?_⟩ <;> decide

/-! ## Public endpoint resolution: Host::determinePublic (C3) -/

/-- An interface or advertised address for endpoint resolution. The
classification predicates (isPrivateAddress, isLocalHostAddress,
is_unspecified — libdevcore and boost, not under src/) are carried as fields;
isV4 and val (the numeric value of the address bytes) drive the std::set
ordering. -/
structure NetAddr where
  isV4 : Bool
  val : Nat
  isPrivate : Bool
  isLocalHost : Bool
  isUnspecified : Bool
deriving DecidableEq, Repr

/-- The boost asio address ordering used by std::set<bi::address>: every v4
address sorts before every v6 address, and within a family addresses compare
by numeric value. -/
def addrLt (a b : NetAddr) : Bool :=
  (a.isV4 && !b.isV4) || ((a.isV4 == b.isV4) && decide (a.val < b.val))

/-- std::set insert: the set is modelled as a list kept sorted by addrLt with
no duplicates (ordering-equivalent elements are not inserted twice). -/
def addrSetInsert (a : NetAddr) : List NetAddr → List NetAddr
  | [] => [a]
  | b :: rest =>
    if addrLt a b then a :: b :: rest
    else if addrLt b a then b :: addrSetInsert a rest
    else b :: rest

/-- std::set count: membership up to ordering-equivalence. -/
def addrSetContains (l : List NetAddr) (a : NetAddr) : Bool :=
  l.any (fun b => !(addrLt a b) && !(addrLt b a))

/-- The default-constructed bi::address(): an unspecified v4 address. -/
def unspecNetAddr : NetAddr := ⟨true, 0, false, false, true⟩

/-- The outputs of Host::determinePublic: m_peerAddresses (in set iteration
order) and m_tcpPublic. -/
structure EndpointState where
  peerAddresses : List NetAddr
  tcpPublic : NetAddr × Int
deriving DecidableEq, Repr

/-- Host::determinePublic. Inputs mirror the source: m_ifAddresses,
m_listenPort, m_netPrefs.localNetworking, the prior m_tcpPublic (left
untouched by the early return), the advertised public address (none for an
empty string, parsed to an unspecified address), the UPnP flag, and — since
Network::traverseNAT is external to src/ — the NAT traversal results natEp
(the mapped endpoint) and natIfAddr as parameters. The branch order is the
source's: early return, eligible-interface set population, advertised
address, first v4 public scan (which publishes the set's FIRST element, not
the matched address), UPnP, v4 private with local networking, unspecified. -/
def determinePublic (ifAddresses : List NetAddr) (listenPort : Int)
    (localNetworking : Bool) (tcpPublicPrev : NetAddr × Int)
    (publicAddress : Option NetAddr) (upnp : Bool)
    (natEp : NetAddr × Int) (natIfAddr : NetAddr) : EndpointState :=
  if ifAddresses.length = 0 ∨ listenPort < 1 then ⟨[], tcpPublicPrev⟩
  else
    let pa := ifAddresses.foldl
      (fun acc addr =>
        if (localNetworking || !addr.isPrivate) && !addr.isLocalHost then addrSetInsert addr acc
        else acc) []
    let req := publicAddress.getD unspecNetAddr
    let isprivate := req.isPrivate
    let ispublic := !isprivate && !req.isLocalHost
    if !req.isUnspecified && (ispublic || (isprivate && localNetworking)) then
      ⟨if addrSetContains pa req then pa else addrSetInsert req pa, (req, listenPort)⟩
    else if pa.any (fun a => a.isV4 && !a.isPrivate) then
      ⟨pa, (pa.headD unspecNetAddr, listenPort)⟩
    else if upnp && !natEp.1.isUnspecified && !natIfAddr.isUnspecified then
      ⟨if addrSetContains pa natEp.1 then pa else addrSetInsert natEp.1 pa, natEp⟩
    else if req.isUnspecified && localNetworking then
      match pa.find? (fun a => a.isV4 && a.isPrivate) with
      | some addr => ⟨pa, (addr, listenPort)⟩
      | none => ⟨pa, (unspecNetAddr, listenPort)⟩
    else ⟨pa, (unspecNetAddr, listenPort)⟩

/-- The private interface address 10.0.0.1 (numeric value 167772161). -/
def privNA : NetAddr := ⟨true, 167772161, true, false, false⟩

/-- The public interface address 54.0.0.1 (numeric value 906018817). -/
def pubNA : NetAddr := ⟨true, 906018817, false, false, false⟩

/-- C3: with local networking enabled, interfaces 54.0.0.1 (public) and
10.0.0.1 (private), no advertised address and UPnP off, the first eligible
interface address that is IPv4 and public is 54.0.0.1 — but the source
publishes the set's first element (10.0.0.1, which sorts first) paired with
the listen port, because the scan assigns from m_peerAddresses.begin()
instead of the matched address, contradicting the claim and the source's own
comment that it uses the first public ipv4 address found. -/
theorem determinePublic_first_element_bug :
    (determinePublic [pubNA, privNA] 30303 true (unspecNetAddr, 0) none false
        (unspecNetAddr, 0) unspecNetAddr).tcpPublic = (privNA, 30303) ∧
    (determinePublic [pubNA, privNA] 30303 true (unspecNetAddr, 0) none false
        (unspecNetAddr, 0) unspecNetAddr).peerAddresses = [privNA, pubNA] ∧
    ([privNA, pubNA] : List NetAddr).find? (fun a => a.isV4 && !a.isPrivate) = some pubNA ∧
    privNA.isPrivate = true ∧ pubNA ≠ privNA := by
  refine ⟨?_, ?_, ?_, ?_, ?_⟩ <;> decide

/-! ## Identity store: Host::getHostIdentifier (C4) -/

/-- The observable outcome of Host::getHostIdentifier: the 32-byte secret of
the produced KeyPair and the contents of the identity file after the call. -/
structure IdentResult where
  secret : List Nat
  fileAfter : List Nat
deriving DecidableEq, Repr

/-- The zero-secret rejection at the end of Host::getHostIdentifier: a
zero-valued h256 raises InvalidState. -/
def identCheck (secret fileContents : List Nat) : Except Unit IdentResult :=
  if secret.all (fun b => b == 0) then .error ()
  else .ok ⟨secret, fileContents⟩

/-- Host::getHostIdentifier. Reads contents of data_dir slash host (the file
contents and the time-seeded RNG are external inputs: libdevcore contents and
std mt19937_64 are not under src/). When the file holds exactly 32 bytes they
become the secret; otherwise 32 bytes are drawn from the uniform 0..255
distribution over the RNG. The function performs no write at all, so the file
contents after the call are the unchanged inputs. -/
def getHostIdentifier (fileContents : List Nat) (rng : Nat → Nat) :
    Except Unit IdentResult :=
  identCheck
    (if fileContents.length = 32 then fileContents
     else (List.range 32).map (fun i => rng i % 256))
    fileContents

/-- C4 counterexample: with the identity file absent, a first load draws a
fresh 32-byte secret and leaves the file absent (nothing is persisted), so a
second load from the same absent file with fresh randomness yields a
different identity — refuting that the generated secret is persisted so that
a subsequent load yields the same identity. -/
theorem getHostIdentifier_not_persisted_cex :
    getHostIdentifier [] (fun _ => 1) = .ok ⟨List.replicate 32 1, []⟩ ∧
    getHostIdentifier [] (fun _ => 2) = .ok ⟨List.replicate 32 2, []⟩ ∧
    (List.replicate 32 1 : List Nat) ≠ List.replicate 32 2 := by
  refine ⟨by rfl, by rfl, by decide⟩

/-- C4 amended: if the identity file is absent or does not contain exactly
32 bytes, getHostIdentifier draws a fresh 32-byte secret from the time-seeded
RNG but does not persist it: the identity file is left unmodified, so the
generated identity is not stable across invocations. -/
theorem getHostIdentifier_amended (fileContents : List Nat) (rng : Nat → Nat)
    (hlen : fileContents.length ≠ 32) (r : IdentResult)
    (hok : getHostIdentifier fileContents rng = .ok r) :
    r.secret = (List.range 32).map (fun i => rng i % 256) ∧ r.fileAfter = fileContents := by
  unfold getHostIdentifier at hok
  rw [if_neg hlen] at hok
  unfold identCheck at hok
  by_cases hz : (((List.range 32).map (fun i => rng i % 256)).all (fun b => b == 0)) = true
  · rw [if_pos hz] at hok
    exact absurd hok (by simp)
  · rw [if_neg hz] at hok
    injection hok with h2
    rw [← h2]
    exact ⟨rfl, rfl⟩

theorem getHostIdentifier_amended_witness :
    ([] : List Nat).length ≠ 32 ∧
    ((⟨List.replicate 32 1, []⟩ : IdentResult).secret =
        (List.range 32).map (fun i => (fun _ : Nat => 1) i % 256) ∧
      (⟨List.replicate 32 1, []⟩ : IdentResult).fileAfter = ([] : List Nat)) :=
  ⟨by decide,
    getHostIdentifier_amended [] (fun _ => 1) (by decide) ⟨List.replicate 32 1, []⟩ (by rfl)⟩

end P2P
